import Mathlib

/- Shallow embedding of the mq-ipc library (src/lib.rs): a typed
   publish/subscribe layer over POSIX message queues, plus a wire-mirroring
   path.  Bytes are Nat (u8 range) and byte buffers are List Nat.  A Pod +
   Zeroable value is identified with its canonical byte representation
   (bytemuck's bytes_of and from_bytes are mutually inverse on Pod types),
   so a value of a Pod type T with size_of::<T>() = n is a byte list of
   length n.  OS calls (mq_open, mq_send, mq_receive) are parametrized by
   explicit oracles giving their outcomes. -/

namespace MqIpc

/-- pub const MSG_PAYLOAD_SIZE: usize = 240 (lib.rs line 38). -/
def MSG_PAYLOAD_SIZE : Nat := 240

/-- const MSG_TYPE_SHUTDOWN: u16 = 0xFFFF (lib.rs line 40). -/
def MSG_TYPE_SHUTDOWN : Nat := 0xFFFF

/-- Linux errno ENOENT, matched in MqTopic::open_existing. -/
def ENOENT : Nat := 2

/-- Linux errno EINTR, matched in the dispatch loop. -/
def EINTR : Nat := 4

/-- Linux errno EBADF, matched in the dispatch loop. -/
def EBADF : Nat := 9

/-- Linux errno EINVAL (mq_open on a malformed queue name). -/
def EINVAL : Nat := 22

/-- MsgHeader { msg_type: u16, len: u16 } (lib.rs lines 44-47). -/
structure MsgHeader where
  msg_type : Nat
  len : Nat
deriving DecidableEq, Repr

/-- Msg { hdr: MsgHeader, payload: [u8; MSG_PAYLOAD_SIZE] } (lib.rs lines
52-55).  The payload is a byte list; a well-formed message has
payload.length = MSG_PAYLOAD_SIZE. -/
structure Msg where
  hdr : MsgHeader
  payload : List Nat
deriving DecidableEq, Repr

/-- Msg::new (lib.rs lines 59-70): len = data.len().min(MSG_PAYLOAD_SIZE);
payload starts zeroed and its first len bytes are copied from data. -/
def Msg.new (msg_type : Nat) (data : List Nat) : Msg :=
  let n := min data.length MSG_PAYLOAD_SIZE
  { hdr := { msg_type := msg_type, len := n },
    payload := data.take n ++ List.replicate (MSG_PAYLOAD_SIZE - n) 0 }

/-- The body of the callback registered by Topic::<T>::subscribe (lib.rs
lines 321-327), applied to one raw message: a buffer of size_of::<T>()
zeros receives min(msg.hdr.len, size_of::<T>()) payload bytes, and the
buffer is reinterpreted as T.  Rust slices msg.payload[..n]; when n
exceeds the payload length that indexing panics, modelled as none. -/
def Topic.decodeMsg (sizeT : Nat) (msg : Msg) : Option (List Nat) :=
  let n := min msg.hdr.len sizeT
  if n ≤ msg.payload.length then
    some (msg.payload.take n ++ List.replicate (sizeT - n) 0)
  else
    none

/-- Topic::<T>::publish (lib.rs lines 331-335) encodes the value to its
canonical bytes and wraps them via Msg::new with the given msg_type; the
resulting raw message is handed to MqTopic::publish. -/
def Topic.publishMsg (v : List Nat) (msg_type : Nat) : Msg :=
  Msg.new msg_type v

/-- Error taxonomy as realised by lib.rs: CString::new failure becomes an
io::ErrorKind::InvalidInput "invalid queue name" (validation), every other
error is io::Error::last_os_error() carrying an errno (resource). -/
inductive MqError where
  | validationError
  | resourceError (errno : Nat)
deriving DecidableEq, Repr

/-- Outcome of one libc::mq_open call, supplied as an oracle: either a
descriptor or a failing errno. -/
inductive OsOpen where
  | ok (mqd : Nat)
  | fail (errno : Nat)
deriving DecidableEq, Repr

/-- CString::new(name) fails exactly when the byte string contains an
embedded null byte (lib.rs lines 95-96 and 131-132). -/
def hasNullByte (name : List Nat) : Bool :=
  name.contains 0

/-- Handle state produced by a successful MqTopic construction (lib.rs
lines 121-127): the stored name and descriptor; running starts true and
the subscriber list starts empty. -/
structure MqHandle where
  name : List Nat
  mqd : Nat
deriving DecidableEq, Repr

/-- MqTopic::new (lib.rs lines 94-128): CString validation of the name,
then mq_open with O_CREAT | O_RDWR whose outcome is the oracle; -1
becomes the last OS error. -/
def MqTopic.new (name : List Nat) (os : OsOpen) : Except MqError MqHandle :=
  if hasNullByte name then
    .error .validationError
  else
    match os with
    | .ok mqd => .ok { name := name, mqd := mqd }
    | .fail errno => .error (.resourceError errno)

/-- Modelled from POSIX semantics of mq_open without O_CREAT (as invoked in
lib.rs lines 134-141): opening a well-formed name that names no existing
queue fails with ENOENT; when the queue exists the outcome is the
oracle's. -/
def mq_open_noCreate (existing : List (List Nat)) (name : List Nat)
    (os : OsOpen) : OsOpen :=
  if name ∈ existing then os else .fail ENOENT

/-- MqTopic::open_existing (lib.rs lines 130-164): CString validation,
mq_open without O_CREAT, and the ENOENT special case mapped to Ok(None). -/
def MqTopic.open_existing (existing : List (List Nat)) (name : List Nat)
    (os : OsOpen) : Except MqError (Option MqHandle) :=
  if hasNullByte name then
    .error .validationError
  else
    match mq_open_noCreate existing name os with
    | .ok mqd => .ok (some { name := name, mqd := mqd })
    | .fail errno =>
      if errno = ENOENT then .ok none
      else .error (.resourceError errno)

/-- Topic::<T>::new (lib.rs lines 308-314): delegates to MqTopic::new.  The
element size sizeT of the Pod type T is taken as a parameter; the source
performs no check on it. -/
def Topic.new (sizeT : Nat) (name : List Nat) (os : OsOpen) :
    Except MqError MqHandle :=
  MqTopic.new name os

/-- Observable actions of impl Drop for MqTopic (lib.rs lines 261-290). -/
inductive DropEvent where
  | setRunningFalse
  | sendSentinel (ok : Bool)
  | closeQueue
  | joinWorker
deriving DecidableEq, Repr

/-- The sequence of actions performed by impl Drop for MqTopic (lib.rs
lines 261-290), parametrized by whether the sentinel mq_send succeeds: the
running flag is stored false, the MSG_TYPE_SHUTDOWN sentinel is sent (a
-1 return is only logged with eprintln), mq_close runs, and then the
worker handle is joined. -/
def MqTopic.dropTrace (sendOk : Bool) : List DropEvent :=
  [DropEvent.setRunningFalse, DropEvent.sendSentinel sendOk,
   DropEvent.closeQueue, DropEvent.joinWorker]

/-- Outcome of one libc::mq_receive call in the dispatch loop: a message,
or a failure whose raw_os_error() may be absent. -/
inductive RecvResult where
  | ok (m : Msg)
  | err (code : Option Nat)
deriving DecidableEq, Repr

/-- What one iteration of the dispatch loop does with its receive
outcome. -/
inductive StepAction where
  | exitLoop
  | continueNoDispatch
  | dispatch (m : Msg)
deriving DecidableEq, Repr

/-- One iteration of the worker dispatch loop of MqTopic::spawn_worker
(lib.rs lines 174-225), given the running flag and the mq_receive
outcome: EINTR retries unless running is false; EBADF exits; other codes
are logged then retried unless running is false; an absent code exits; a
received sentinel-typed message while running is false exits without
dispatch; any other message is dispatched to every subscriber. -/
def MqTopic.workerStep (running : Bool) (r : RecvResult) : StepAction :=
  match r with
  | .err c =>
    match c with
    | some code =>
      if code = EINTR then
        if running then .continueNoDispatch else .exitLoop
      else if code = EBADF then .exitLoop
      else
        if running then .continueNoDispatch else .exitLoop
    | none => .exitLoop
  | .ok m =>
    if m.hdr.msg_type = MSG_TYPE_SHUTDOWN ∧ running = false then .exitLoop
    else .dispatch m

/-- pub const WIRE_MAX_TOPIC: usize = 64 (lib.rs line 360). -/
def WIRE_MAX_TOPIC : Nat := 64

/-- pub const WIRE_MAX_PAYLOAD: usize = 128 (lib.rs line 363). -/
def WIRE_MAX_PAYLOAD : Nat := 128

/-- Is b a UTF-8 continuation byte (0x80..=0xBF)? -/
def utf8Cont (b : Nat) : Bool :=
  0x80 ≤ b && b ≤ 0xBF

/-- UTF-8 validity of a byte sequence, per RFC 3629 as enforced by
std::str::from_utf8 (called in WirePacket::topic_name, lib.rs line
386). -/
def validUtf8 : List Nat → Bool
  | [] => true
  | b :: rest =>
    if b ≤ 0x7F then validUtf8 rest
    else if 0xC2 ≤ b && b ≤ 0xDF then
      match rest with
      | c :: rest2 => utf8Cont c && validUtf8 rest2
      | [] => false
    else if b = 0xE0 then
      match rest with
      | c :: d :: rest2 =>
        (0xA0 ≤ c && c ≤ 0xBF) && utf8Cont d && validUtf8 rest2
      | _ => false
    else if (0xE1 ≤ b && b ≤ 0xEC) || b = 0xEE || b = 0xEF then
      match rest with
      | c :: d :: rest2 => utf8Cont c && utf8Cont d && validUtf8 rest2
      | _ => false
    else if b = 0xED then
      match rest with
      | c :: d :: rest2 =>
        (0x80 ≤ c && c ≤ 0x9F) && utf8Cont d && validUtf8 rest2
      | _ => false
    else if b = 0xF0 then
      match rest with
      | c :: d :: e :: rest2 =>
        (0x90 ≤ c && c ≤ 0xBF) && utf8Cont d && utf8Cont e && validUtf8 rest2
      | _ => false
    else if 0xF1 ≤ b && b ≤ 0xF3 then
      match rest with
      | c :: d :: e :: rest2 =>
        utf8Cont c && utf8Cont d && utf8Cont e && validUtf8 rest2
      | _ => false
    else if b = 0xF4 then
      match rest with
      | c :: d :: e :: rest2 =>
        (0x80 ≤ c && c ≤ 0x8F) && utf8Cont d && utf8Cont e && validUtf8 rest2
      | _ => false
    else false

/-- std::str::from_utf8 on a byte slice: a Rust str is its UTF-8 bytes, so
a successful decode returns the same bytes and a failure is signalled. -/
def strFromUtf8 (bs : List Nat) : Option (List Nat) :=
  if validUtf8 bs then some bs else none

/-- WirePacket (lib.rs lines 372-378): payload_len u16, topic_len u8,
reserved u8, topic [u8; 64], data [u8; 128].  A well-formed packet has
topic.length = 64 and data.length = 128. -/
structure WirePacket where
  payload_len : Nat
  topic_len : Nat
  reserved : Nat
  topic : List Nat
  data : List Nat
deriving DecidableEq, Repr

/-- WirePacket::topic_name (lib.rs lines 383-390): the stored topic_len is
clamped to WIRE_MAX_TOPIC, that many leading bytes of topic are decoded
as UTF-8, and invalid UTF-8 yields the empty string. -/
def WirePacket.topicName (p : WirePacket) : List Nat :=
  let len := min p.topic_len WIRE_MAX_TOPIC
  match strFromUtf8 (p.topic.take len) with
  | some s => s
  | none => []

/-- The WirePacket built inside WireTx::publish (lib.rs lines 437-453):
the stored topic name truncated to WIRE_MAX_TOPIC bytes and the value's
canonical bytes truncated to WIRE_MAX_PAYLOAD bytes, in zeroed buffers,
with the truncated lengths recorded and reserved = 0. -/
def WireTx.mkPacket (topicNameBytes : List Nat) (raw : List Nat) :
    WirePacket :=
  let tlen := min topicNameBytes.length WIRE_MAX_TOPIC
  let plen := min raw.length WIRE_MAX_PAYLOAD
  { payload_len := plen,
    topic_len := tlen,
    reserved := 0,
    topic := topicNameBytes.take tlen ++
      List.replicate (WIRE_MAX_TOPIC - tlen) 0,
    data := raw.take plen ++ List.replicate (WIRE_MAX_PAYLOAD - plen) 0 }

/-- State of a WireTx<T> (lib.rs lines 397-405) for the purpose of its
publish method: each typed topic is observed as the log of (value bytes,
msg_type, priority) triples it has published, plus the stored topic
name. -/
structure WireTxState where
  localLog : List (List Nat × Nat × Nat)
  txLog : List (WirePacket × Nat × Nat)
  topicNameBytes : List Nat
deriving DecidableEq, Repr

/-- WireTx::publish (lib.rs lines 433-456), with the outcomes of the two
underlying mq_send calls as oracles (none = success, some errno =
failure): first the local typed publish with msg_type 1 priority 0,
failing fast on error; then the mirror WirePacket publish on the internal
topic with msg_type 0 priority 0.  A failed send enqueues nothing. -/
def WireTx.publish (st : WireTxState) (v : List Nat)
    (localRes txRes : Option Nat) : WireTxState × Except MqError Unit :=
  match localRes with
  | some errno => (st, .error (.resourceError errno))
  | none =>
    let st1 := { st with localLog := st.localLog ++ [(v, 1, 0)] }
    let pkt := WireTx.mkPacket st.topicNameBytes v
    match txRes with
    | some errno => (st1, .error (.resourceError errno))
    | none =>
      ({ st1 with txLog := st1.txLog ++ [(pkt, 0, 0)] }, .ok ())

/-- A concrete WireTx state used as a witness input: freshly constructed
logs and the stored local topic name "/m" ([47, 109]). -/
def wireSt0 : WireTxState :=
  { localLog := [], txLog := [], topicNameBytes := [47, 109] }

/-- A concrete WireTx state whose stored local topic name has 65 bytes
("/" then 64 times "a"), so building its wire frame truncates the name to
WIRE_MAX_TOPIC bytes. -/
def wireSt1 : WireTxState :=
  { localLog := [], txLog := [],
    topicNameBytes := 47 :: List.replicate 64 97 }

/-- A concrete 130-byte value, so building its wire frame truncates the
payload to WIRE_MAX_PAYLOAD bytes. -/
def wireVal1 : List Nat := List.replicate 130 5

/-- A concrete malformed WirePacket used as a witness input: its topic_len
field (255) exceeds WIRE_MAX_TOPIC, as another process could produce; the
topic buffer holds 64 bytes 0x41. -/
def wirePkt0 : WirePacket :=
  { payload_len := 0, topic_len := 255, reserved := 0,
    topic := List.replicate 64 65, data := List.replicate 128 0 }

/-- C4: round-trip law.  For a Pod type of size sizeT ≤ 240 and a value v
(its canonical byte form, of length sizeT), decoding the message produced
by the typed publish encoding with the typed subscribe decoding returns
exactly v. -/
theorem typed_roundtrip (sizeT tag : Nat) (v : List Nat)
    (hsize : sizeT ≤ MSG_PAYLOAD_SIZE) (hv : v.length = sizeT) :
    Topic.decodeMsg sizeT (Topic.publishMsg v tag) = some v := by
  unfold Topic.decodeMsg Topic.publishMsg Msg.new
  simp only [MSG_PAYLOAD_SIZE] at hsize ⊢
  have hmin : min v.length 240 = sizeT := by
    rw [hv]; exact Nat.min_eq_left hsize
  simp only [hmin]
  have hlen : (v.take sizeT ++ List.replicate (240 - sizeT) 0).length = 240 := by
    simp [List.length_take, hv, Nat.min_self, Nat.add_sub_cancel' hsize]
  have hn : min sizeT sizeT = sizeT := Nat.min_self sizeT
  simp only [hn, hlen]
  rw [if_pos hsize]
  have htake : (v.take sizeT ++ List.replicate (240 - sizeT) 0).take sizeT = v := by
    rw [List.take_append_of_le_length (by simp [hv])]
    simp [List.take_take, hv]
  rw [htake]
  simp

/-- C4 witness at a concrete 4-byte value. -/
theorem typed_roundtrip_witness :
    Topic.decodeMsg 4 (Topic.publishMsg [1, 2, 3, 4] 1) = some [1, 2, 3, 4] :=
  typed_roundtrip 4 1 [1, 2, 3, 4] (by decide) (by decide)

/-- C1 counterexample: with a Pod type of size 241 > 240 and a name whose
mq_open succeeds with descriptor 3, Topic::new returns Ok, not a
configuration error: the source performs no construction-time size
check. -/
theorem topic_new_oversized_ok :
    Topic.new 241 [47, 116] (.ok 3) = .ok { name := [47, 116], mqd := 3 } := by
  rfl

/-- C1 amended: Topic::new performs no size check at all — for any element
size it succeeds whenever MqTopic::new does — and an oversized encoding is
instead silently truncated at publish time: Msg::new caps the recorded
length at MSG_PAYLOAD_SIZE and keeps only the first MSG_PAYLOAD_SIZE
bytes. -/
theorem topic_new_no_size_check (sizeT : Nat) (name : List Nat) (mqd : Nat)
    (hname : hasNullByte name = false) :
    Topic.new sizeT name (.ok mqd) = .ok { name := name, mqd := mqd } ∧
    ∀ v : List Nat, MSG_PAYLOAD_SIZE < v.length →
      (Msg.new 1 v).hdr.len = MSG_PAYLOAD_SIZE ∧
      (Msg.new 1 v).payload = v.take MSG_PAYLOAD_SIZE := by
  constructor
  · unfold Topic.new MqTopic.new
    rw [hname]
    rfl
  · intro v hv
    have hmin : min v.length MSG_PAYLOAD_SIZE = MSG_PAYLOAD_SIZE :=
      Nat.min_eq_right (Nat.le_of_lt hv)
    unfold Msg.new
    simp [hmin]

/-- C1 amended, witness at size 241, name "/t", a 241-byte value. -/
theorem topic_new_no_size_check_witness :
    Topic.new 241 [47, 116] (.ok 3) = .ok { name := [47, 116], mqd := 3 } ∧
    (Msg.new 1 (List.replicate 241 7)).hdr.len = MSG_PAYLOAD_SIZE ∧
    (Msg.new 1 (List.replicate 241 7)).payload =
      (List.replicate 241 7).take MSG_PAYLOAD_SIZE :=
  ⟨(topic_new_no_size_check 241 [47, 116] 3 (by decide)).1,
   (topic_new_no_size_check 241 [47, 116] 3 (by decide)).2
     (List.replicate 241 7)
     (by rw [List.length_replicate]; norm_num [MSG_PAYLOAD_SIZE])⟩

/-- C2 counterexample: the teardown trace (with a successful sentinel
send) is not the claimed order set-running, send, join, close — the code
closes the queue handle before joining the worker. -/
theorem drop_order_counterexample :
    MqTopic.dropTrace true ≠
      [DropEvent.setRunningFalse, DropEvent.sendSentinel true,
       DropEvent.joinWorker, DropEvent.closeQueue] := by
  decide

/-- C2 amended: teardown performs, in order, running := false, the
sentinel send (its failure only logged), closing the queue handle, and
then joining the worker thread; all four steps run regardless of the
sentinel send outcome, and the sentinel is the reserved-type empty
message. -/
theorem drop_order (sendOk : Bool) :
    MqTopic.dropTrace sendOk =
      [DropEvent.setRunningFalse, DropEvent.sendSentinel sendOk,
       DropEvent.closeQueue, DropEvent.joinWorker] ∧
    (Msg.new MSG_TYPE_SHUTDOWN []).hdr =
      { msg_type := MSG_TYPE_SHUTDOWN, len := 0 } := by
  constructor
  · rfl
  · rfl

/-- C3 counterexample: the empty name is not rejected by validation —
CString::new("") succeeds — so MqTopic::new reaches mq_open; when the OS
then fails with EINVAL the result is a resource error, not the claimed
validation error. -/
theorem new_empty_name_not_validation :
    MqTopic.new [] (.fail EINVAL) = .error (.resourceError EINVAL) ∧
    MqTopic.new [] (.fail EINVAL) ≠ .error .validationError := by
  refine ⟨rfl, fun h => ?_⟩
  rw [show MqTopic.new [] (.fail EINVAL) =
    .error (.resourceError EINVAL) from rfl] at h
  simp [EINVAL] at h

/-- C3 amended: MqTopic::new fails with the validation error exactly for
names containing an embedded null byte, independently of the OS oracle —
mq_open is never consulted in that case; an empty name passes validation
and any OS failure on it surfaces as a resource error. -/
theorem new_null_name_validation (name : List Nat) (os : OsOpen)
    (h : hasNullByte name = true) :
    MqTopic.new name os = .error .validationError := by
  unfold MqTopic.new
  rw [h]
  rfl

/-- C3 amended, witness at the one-byte name [0] and a succeeding OS. -/
theorem new_null_name_validation_witness :
    MqTopic.new [0] (.ok 1) = .error .validationError :=
  new_null_name_validation [0] (.ok 1) (by decide)

/-- C6: WireTx::publish is fail-fast on the local publish — when the local
mq_send fails with an errno, that error is returned immediately and the
whole state (the internal topic's log in particular) is unchanged,
whatever the mirror send would have done. -/
theorem wiretx_publish_fail_fast (st : WireTxState) (v : List Nat)
    (errno : Nat) (txRes : Option Nat) :
    WireTx.publish st v (some errno) txRes =
      (st, .error (.resourceError errno)) := by
  rfl

/-- C8: one dispatch-loop iteration that receives a message carrying the
shutdown sentinel type while the running flag is false exits the loop
without dispatching to any subscriber. -/
theorem worker_sentinel_exits (m : Msg)
    (h : m.hdr.msg_type = MSG_TYPE_SHUTDOWN) :
    MqTopic.workerStep false (.ok m) = .exitLoop := by
  simp [MqTopic.workerStep, h]

/-- C8 witness at the concrete sentinel message. -/
theorem worker_sentinel_exits_witness :
    MqTopic.workerStep false (.ok (Msg.new MSG_TYPE_SHUTDOWN [])) =
      .exitLoop :=
  worker_sentinel_exits (Msg.new MSG_TYPE_SHUTDOWN []) rfl

/-- C9: MqTopic::open_existing on a valid name (no embedded null byte)
returns Ok(None) whenever the name names no existing queue (the OS
reports ENOENT); when the queue exists and the OS open succeeds it
returns an opened handle; and any other OS open failure surfaces as a
resource error with its errno. -/
theorem open_existing_spec (existing : List (List Nat)) (name : List Nat)
    (hname : hasNullByte name = false) :
    (name ∉ existing →
      ∀ os, MqTopic.open_existing existing name os = .ok none) ∧
    (name ∈ existing →
      ∀ mqd, MqTopic.open_existing existing name (.ok mqd) =
        .ok (some { name := name, mqd := mqd })) ∧
    (name ∈ existing → ∀ errno, errno ≠ ENOENT →
      MqTopic.open_existing existing name (.fail errno) =
        .error (.resourceError errno)) := by
  refine ⟨fun habs os => ?_, fun hmem mqd => ?_, fun hmem errno hne => ?_⟩
  · unfold MqTopic.open_existing mq_open_noCreate
    rw [hname, if_neg habs]
    simp
  · unfold MqTopic.open_existing mq_open_noCreate
    rw [hname, if_pos hmem]
    rfl
  · unfold MqTopic.open_existing mq_open_noCreate
    rw [hname, if_pos hmem]
    simp [hne]

/-- C9 witness: with existing queue "/a", the absent name "/b" yields
Ok(None); "/a" opens with descriptor 5; and a non-ENOENT failure (EINVAL)
on "/a" yields a resource error. -/
theorem open_existing_spec_witness :
    MqTopic.open_existing [[47, 97]] [47, 98] (.fail ENOENT) = .ok none ∧
    MqTopic.open_existing [[47, 97]] [47, 97] (.ok 5) =
      .ok (some { name := [47, 97], mqd := 5 }) ∧
    MqTopic.open_existing [[47, 97]] [47, 97] (.fail EINVAL) =
      .error (.resourceError EINVAL) :=
  ⟨(open_existing_spec [[47, 97]] [47, 98] (by decide)).1
      (by decide) (.fail ENOENT),
   (open_existing_spec [[47, 97]] [47, 97] (by decide)).2.1
      (by decide) 5,
   (open_existing_spec [[47, 97]] [47, 97] (by decide)).2.2
      (by decide) EINVAL (by decide)⟩

theorem msg_new_payload_length (t : Nat) (data : List Nat) :
    (Msg.new t data).payload.length = MSG_PAYLOAD_SIZE := by
  unfold Msg.new
  simp only [List.length_append, List.length_take, List.length_replicate]
  omega

/-- C7: on any raw message (with its 240-byte payload) the typed subscribe
decoder yields a buffer of exactly sizeT bytes whose first
min(msg.hdr.len, sizeT) bytes are the corresponding payload bytes and
whose remaining tail bytes are all zero — the value is built from that
fully-determined buffer, never from uninitialized memory. -/
theorem subscribe_zero_fill (sizeT : Nat) (msg : Msg)
    (hwf : msg.payload.length = MSG_PAYLOAD_SIZE)
    (hn : min msg.hdr.len sizeT ≤ MSG_PAYLOAD_SIZE) :
    ∃ buf, Topic.decodeMsg sizeT msg = some buf ∧
      buf.length = sizeT ∧
      (∀ i, i < min msg.hdr.len sizeT → buf[i]? = msg.payload[i]?) ∧
      (∀ i, min msg.hdr.len sizeT ≤ i → i < sizeT → buf[i]? = some 0) := by
  refine ⟨msg.payload.take (min msg.hdr.len sizeT) ++
    List.replicate (sizeT - min msg.hdr.len sizeT) 0, ?_, ?_, ?_, ?_⟩
  · unfold Topic.decodeMsg
    rw [if_pos (by rw [hwf]; exact hn)]
  · rw [List.length_append, List.length_take, List.length_replicate, hwf]
    omega
  · intro i hi
    have hlt : i < (msg.payload.take (min msg.hdr.len sizeT)).length := by
      rw [List.length_take, hwf]
      omega
    rw [List.getElem?_append_left hlt, List.getElem?_take_of_lt hi]
  · intro i h1 h2
    have hge : (msg.payload.take (min msg.hdr.len sizeT)).length ≤ i := by
      rw [List.length_take, hwf]
      omega
    rw [List.getElem?_append_right hge, List.getElem?_replicate_of_lt]
    rw [List.length_take, hwf]
    omega

/-- C7 witness: a 2-byte message decoded at element size 4 gives the
payload bytes then zeros. -/
theorem subscribe_zero_fill_witness :
    ∃ buf, Topic.decodeMsg 4 (Msg.new 5 [9, 9]) = some buf ∧
      buf.length = 4 ∧
      (∀ i, i < min (Msg.new 5 [9, 9]).hdr.len 4 →
        buf[i]? = (Msg.new 5 [9, 9]).payload[i]?) ∧
      (∀ i, min (Msg.new 5 [9, 9]).hdr.len 4 ≤ i → i < 4 →
        buf[i]? = some 0) :=
  subscribe_zero_fill 4 (Msg.new 5 [9, 9])
    (msg_new_payload_length 5 [9, 9])
    (by decide)

/-- C5: a fully successful WireTx::publish appends exactly one frame, the
WirePacket built from the stored name and the value, to the internal
topic's log, tagged msg_type 0 and priority 0, and returns Ok; that
packet has reserved = 0, records the truncated name and payload lengths,
carries the truncated name and value bytes as prefixes of its zeroed
buffers, and (the stored name being at most 64 valid UTF-8 bytes) its
decoded topic name is exactly the stored name. -/
theorem topicName_mkPacket (nameB v : List Nat)
    (hlen : nameB.length ≤ WIRE_MAX_TOPIC)
    (hutf : validUtf8 nameB = true) :
    (WireTx.mkPacket nameB v).topicName = nameB := by
  have h1 : (WireTx.mkPacket nameB v).topic.take nameB.length = nameB := by
    unfold WireTx.mkPacket
    simp only [Nat.min_eq_left hlen]
    rw [List.take_append_of_le_length (by rw [List.length_take]; omega)]
    rw [List.take_take, Nat.min_self, List.take_length]
  have h2 : min (WireTx.mkPacket nameB v).topic_len WIRE_MAX_TOPIC =
      nameB.length := by
    show min (min nameB.length WIRE_MAX_TOPIC) WIRE_MAX_TOPIC = nameB.length
    rw [Nat.min_eq_left hlen, Nat.min_eq_left hlen]
  unfold WirePacket.topicName
  simp only [h2, h1, strFromUtf8, hutf, if_true]

theorem wiretx_publish_frame (st : WireTxState) (v : List Nat) :
    (WireTx.publish st v none none).1.txLog =
      st.txLog ++ [(WireTx.mkPacket st.topicNameBytes v, 0, 0)] ∧
    (WireTx.publish st v none none).2 = .ok () ∧
    (WireTx.mkPacket st.topicNameBytes v).reserved = 0 ∧
    (WireTx.mkPacket st.topicNameBytes v).topic_len =
      min st.topicNameBytes.length WIRE_MAX_TOPIC ∧
    (WireTx.mkPacket st.topicNameBytes v).payload_len =
      min v.length WIRE_MAX_PAYLOAD ∧
    (WireTx.mkPacket st.topicNameBytes v).topic.take
        (min st.topicNameBytes.length WIRE_MAX_TOPIC) =
      st.topicNameBytes.take (min st.topicNameBytes.length WIRE_MAX_TOPIC) ∧
    (WireTx.mkPacket st.topicNameBytes v).data.take
        (min v.length WIRE_MAX_PAYLOAD) =
      v.take (min v.length WIRE_MAX_PAYLOAD) ∧
    (st.topicNameBytes.length ≤ WIRE_MAX_TOPIC →
      validUtf8 st.topicNameBytes = true →
      (WireTx.mkPacket st.topicNameBytes v).topicName =
        st.topicNameBytes) := by
  refine ⟨rfl, rfl, rfl, rfl, rfl, ?_, ?_,
    fun hlen hutf => topicName_mkPacket _ _ hlen hutf⟩
  · unfold WireTx.mkPacket
    rw [List.take_append_of_le_length
        (by rw [List.length_take]; omega)]
    rw [List.take_take, Nat.min_self]
  · unfold WireTx.mkPacket
    rw [List.take_append_of_le_length
        (by rw [List.length_take]; omega)]
    rw [List.take_take, Nat.min_self]

/-- C5 witness at inputs that really truncate: a 65-byte name and a
130-byte value (topic_len becomes 64, payload_len becomes 128, and the
buffers keep the truncated prefixes); plus, at the 2-byte name "/m", the
decoded topic name of the emitted frame equal to the stored name. -/
theorem wiretx_publish_frame_witness :
    ((WireTx.publish wireSt1 wireVal1 none none).1.txLog =
      wireSt1.txLog ++
        [(WireTx.mkPacket wireSt1.topicNameBytes wireVal1, 0, 0)] ∧
    (WireTx.publish wireSt1 wireVal1 none none).2 = .ok () ∧
    (WireTx.mkPacket wireSt1.topicNameBytes wireVal1).reserved = 0 ∧
    (WireTx.mkPacket wireSt1.topicNameBytes wireVal1).topic_len =
      min wireSt1.topicNameBytes.length WIRE_MAX_TOPIC ∧
    (WireTx.mkPacket wireSt1.topicNameBytes wireVal1).payload_len =
      min wireVal1.length WIRE_MAX_PAYLOAD ∧
    (WireTx.mkPacket wireSt1.topicNameBytes wireVal1).topic.take
        (min wireSt1.topicNameBytes.length WIRE_MAX_TOPIC) =
      wireSt1.topicNameBytes.take
        (min wireSt1.topicNameBytes.length WIRE_MAX_TOPIC) ∧
    (WireTx.mkPacket wireSt1.topicNameBytes wireVal1).data.take
        (min wireVal1.length WIRE_MAX_PAYLOAD) =
      wireVal1.take (min wireVal1.length WIRE_MAX_PAYLOAD)) ∧
    (WireTx.mkPacket wireSt0.topicNameBytes [1, 2, 3, 4]).topicName =
      wireSt0.topicNameBytes :=
  ⟨⟨(wiretx_publish_frame wireSt1 wireVal1).1,
    (wiretx_publish_frame wireSt1 wireVal1).2.1,
    (wiretx_publish_frame wireSt1 wireVal1).2.2.1,
    (wiretx_publish_frame wireSt1 wireVal1).2.2.2.1,
    (wiretx_publish_frame wireSt1 wireVal1).2.2.2.2.1,
    (wiretx_publish_frame wireSt1 wireVal1).2.2.2.2.2.1,
    (wiretx_publish_frame wireSt1 wireVal1).2.2.2.2.2.2.1⟩,
   (wiretx_publish_frame wireSt0 [1, 2, 3, 4]).2.2.2.2.2.2.2
     (by decide) (by decide)⟩

/-- C10: WirePacket::topic_name is total even on malformed frames: for any
packet with its 64-byte topic buffer, including topic_len > 64, the
length used for indexing is first clamped to min(topic_len, 64) — so it
never exceeds the buffer, the result is unchanged by replacing topic_len
with its clamped value, and the function always returns either the
decoded clamped prefix or the empty string. -/
theorem topicName_total_clamps (p : WirePacket)
    (hwf : p.topic.length = WIRE_MAX_TOPIC) :
    min p.topic_len WIRE_MAX_TOPIC ≤ p.topic.length ∧
    p.topicName = WirePacket.topicName
      { p with topic_len := min p.topic_len WIRE_MAX_TOPIC } ∧
    (p.topicName = [] ∨
      p.topicName = p.topic.take (min p.topic_len WIRE_MAX_TOPIC)) := by
  have hm : min (min p.topic_len WIRE_MAX_TOPIC) WIRE_MAX_TOPIC =
      min p.topic_len WIRE_MAX_TOPIC :=
    Nat.min_eq_left (Nat.min_le_right _ _)
  refine ⟨?_, ?_, ?_⟩
  · rw [hwf]
    exact Nat.min_le_right _ _
  · simp only [WirePacket.topicName, hm]
  · by_cases hv :
      validUtf8 (p.topic.take (min p.topic_len WIRE_MAX_TOPIC)) = true
    · right
      simp only [WirePacket.topicName, strFromUtf8, hv, if_true]
    · left
      simp only [WirePacket.topicName, strFromUtf8]
      rw [if_neg hv]

/-- C10 witness at the malformed packet with topic_len = 255. -/
theorem topicName_total_clamps_witness :
    min wirePkt0.topic_len WIRE_MAX_TOPIC ≤ wirePkt0.topic.length ∧
    wirePkt0.topicName = WirePacket.topicName
      { wirePkt0 with topic_len := min wirePkt0.topic_len WIRE_MAX_TOPIC } ∧
    (wirePkt0.topicName = [] ∨
      wirePkt0.topicName =
        wirePkt0.topic.take (min wirePkt0.topic_len WIRE_MAX_TOPIC)) :=
  topicName_total_clamps wirePkt0 (by decide)

end MqIpc
